import Mathlib

/-!
Shallow embedding of the web-scraping pipeline in `src/web-pars/main.py`:
the extractor (`parse_company`), the enrichment stub (`process_with_chatgpt`),
the aggregator (`save_results`), the batch fetch (`fetch_companies`) and the
driver (`main`).  Company records are `(id, url)` pairs; the result queue
carries `(text, id)` tuples plus the sentinel string STOP, modelled by an
inductive `QItem`.  External effects (browser steps, database calls, the
enrichment API) are modelled by explicit outcome parameters: a `Bool` per
fallible step, faithful to the `try`/`except` structure of the source.
-/

/-- Python whitespace characters, as recognised by `str.strip()`. -/
def isPySpace (c : Char) : Bool :=
  c = ' ' || c = '\t' || c = '\n' || c = '\r' || c = Char.ofNat 11 || c = Char.ofNat 12

/-- Model of Python `s.strip()`: drop leading and trailing whitespace. -/
def pyStrip (s : String) : String :=
  ⟨((s.data.dropWhile isPySpace).reverse.dropWhile isPySpace).reverse⟩

/-- Model of Python string truthiness (`if s:`): a string is truthy iff nonempty. -/
def pyTruthy (s : String) : Bool :=
  !s.isEmpty

/-- The double-quote character removed by `text.replace('"', '')` (line 184). -/
def quoteChar : Char := Char.ofNat 34

/-- The single-quote character removed by the second `replace` on line 184. -/
def apostChar : Char := Char.ofNat 39

/-- Model of Python `s.replace(c, '')` for a one-character pattern `c`:
every occurrence of `c` is deleted. -/
def pyReplaceEmpty (s : String) (c : Char) : String :=
  ⟨s.data.filter (fun a => !(a == c))⟩

/-- Line 181: `' '.join(el.text for el in elements if el.text.strip())` —
join the node texts with single spaces, skipping texts whose strip is empty. -/
def collectedText (nodeTexts : List String) : String :=
  String.intercalate " " (nodeTexts.filter (fun t => pyTruthy (pyStrip t)))

/-- Line 184: `text.replace('"', '').replace("'", '').strip()`. -/
def sanitizeText (s : String) : String :=
  pyStrip (pyReplaceEmpty (pyReplaceEmpty s quoteChar) apostChar)

/-- An item on the result queue: either a `(text, company_id)` tuple put by
`parse_company`, or the sentinel string STOP put by `main`.  In Python a tuple
never compares equal to the string STOP, so the sentinel is a distinct
constructor. -/
inductive QItem where
  | env : String → Nat → QItem
  | stop : QItem
deriving DecidableEq

/-- Outcome environment for one `parse_company` invocation: whether each
fallible external step succeeds (`webdriver.Chrome`, `driver.get`,
`WebDriverWait`, `execute_script`, `find_elements`, `driver.quit`), and the
`.text` of each element found by the XPath query `//div | //p`. -/
structure ExtractorExec where
  createOk : Bool
  navOk : Bool
  waitOk : Bool
  scrollOk : Bool
  collectOk : Bool
  closeOk : Bool
  nodeTexts : List String
deriving DecidableEq

/-- What one `parse_company` invocation did: the queue puts it performed in
order, whether a webdriver session was created (`webdriver.Chrome` returned),
and whether `driver.quit()` was invoked (the `finally` of `get_webdriver`
runs it whenever `driver` is non-None). -/
structure ParseResult where
  puts : List QItem
  sessionCreated : Bool
  closeInvoked : Bool
deriving DecidableEq

/-- Lines 167-191, `parse_company(company_data, result_queue)`: the whole body
is wrapped in `try ... except Exception`, which puts `("ERROR", company_id)`.
The steps run in order inside `with get_webdriver() as driver`; the success
put happens inside the `with` block, so a failure of `driver.quit()` on the
way out of a fully successful body raises after the success put and the outer
`except` then puts a second, ERROR, envelope.  A failing step short-circuits
the rest; `driver.quit()` is invoked on every exit path on which the session
was created. -/
def parse_company (company : Nat × String) (e : ExtractorExec) : ParseResult :=
  if e.createOk then
    if e.navOk then
      if e.waitOk then
        if e.scrollOk then
          if e.collectOk then
            let text := sanitizeText (collectedText e.nodeTexts)
            if e.closeOk then
              ⟨[QItem.env text company.1], true, true⟩
            else
              ⟨[QItem.env text company.1, QItem.env "ERROR" company.1], true, true⟩
          else ⟨[QItem.env "ERROR" company.1], true, true⟩
        else ⟨[QItem.env "ERROR" company.1], true, true⟩
      else ⟨[QItem.env "ERROR" company.1], true, true⟩
    else ⟨[QItem.env "ERROR" company.1], true, true⟩
  else ⟨[QItem.env "ERROR" company.1], false, false⟩

/-- Lines 195-224, `process_with_chatgpt(text)`: returns None for falsy text
and for the ERROR marker; otherwise returns the API response content, or None
when the API call raises.  `apiResult` models the content-or-exception of the
OpenAI call.  Note: in `save_results` this function is bypassed (its call is
commented out, line 237) and replaced by the stub `processed_text = text`. -/
def process_with_chatgpt (text : String) (apiResult : Option String) : Option String :=
  if !pyTruthy text || text == "ERROR" then none
  else apiResult

/-- What one `save_results` run did: how many `result_queue.get()` calls
completed, which UPDATE statements were executed (id, description) in order,
and which of them committed (the database call may raise, modelled by
`dbOk`). -/
structure SaveRun where
  dequeued : Nat
  attempts : List (Nat × String)
  commits : List (Nat × String)
deriving DecidableEq

/-- Lines 228-248, `save_results(result_queue)`: loop `get`ting items until
the STOP sentinel; for a `(text, company_id)` tuple the stub sets
`processed_text = text` (the ChatGPT call is commented out) and the UPDATE is
executed iff `processed_text` is truthy, i.e. a nonempty string; a database
error is caught and logged per item and the loop continues.  The queue is
modelled as the finite list of items in dequeue order. -/
def save_results (dbOk : Nat → String → Bool) : List QItem → SaveRun
  | [] => ⟨0, [], []⟩
  | QItem.stop :: _ => ⟨1, [], []⟩
  | QItem.env text companyId :: rest =>
    let processedText := text
    let r := save_results dbOk rest
    if pyTruthy processedText then
      ⟨r.dequeued + 1, (companyId, processedText) :: r.attempts,
        if dbOk companyId processedText then (companyId, processedText) :: r.commits
        else r.commits⟩
    else
      ⟨r.dequeued + 1, r.attempts, r.commits⟩

/-- Lines 155-163, `fetch_companies()`: returns the rows of the SELECT, and
`[]` when the database raises (`except Error: ... return []`). -/
def fetch_companies (dbResult : Except Unit (List (Nat × String))) : List (Nat × String) :=
  match dbResult with
  | Except.ok rows => rows
  | Except.error _ => []

/-- Lines 263-278: the dispatcher loop of `main`.  `pending` is the
`processes` list; each company is started and appended; once
`len(processes) >= MAX_THREADS` the whole round is joined and the list reset;
the trailing `for p in processes: p.join()` joins the final partial round. -/
def dispatchLoop (kMax : Nat) (pending : List (Nat × String)) :
    List (Nat × String) → List (List (Nat × String))
  | [] => if pending.isEmpty then [] else [pending]
  | c :: rest =>
    if kMax ≤ (pending ++ [c]).length then (pending ++ [c]) :: dispatchLoop kMax [] rest
    else dispatchLoop kMax (pending ++ [c]) rest

/-- The maximum number of extractor processes simultaneously un-joined, i.e.
the largest round size of the dispatcher. -/
def maxConcurrent (kMax : Nat) (companies : List (Nat × String)) : Nat :=
  ((dispatchLoop kMax [] companies).map List.length).foldr max 0

/-- All result-queue envelopes put by the extractor rounds of one `main` run,
round by round (one representative interleaving; the channel is unordered, so
theorems about the queue quantify over permutations of this list). -/
def mainEnvelopes (kMax : Nat) (companies : List (Nat × String))
    (execOf : Nat × String → ExtractorExec) : List QItem :=
  ((dispatchLoop kMax [] companies).map
    (fun round => (round.map (fun c => (parse_company c (execOf c)).puts)).flatten)).flatten

/-- What one `main` run did: number of `Process(...).start()` calls for
extractors, the dispatcher rounds, the full queue trace seen by the saver
(envelopes then the STOP sentinel), and the saver's run. -/
structure MainRun where
  started : Nat
  rounds : List (List (Nat × String))
  trace : List QItem
  save : SaveRun
deriving DecidableEq

/-- Lines 251-283, `main()`: fetch the batch; on an empty batch log and
return (no queue, no saver, no extractors); otherwise start the saver, run
the dispatcher rounds, join everything, put STOP, and join the saver.  The
saver consumes exactly the envelopes followed by the STOP sentinel.
(Named `mainDriver` because `main` is reserved in Lean.) -/
def mainDriver (dbResult : Except Unit (List (Nat × String))) (kMax : Nat)
    (execOf : Nat × String → ExtractorExec) (dbOk : Nat → String → Bool) : MainRun :=
  let companies := fetch_companies dbResult
  if companies.isEmpty then ⟨0, [], [], ⟨0, [], []⟩⟩
  else
    let trace := mainEnvelopes kMax companies execOf ++ [QItem.stop]
    ⟨companies.length, dispatchLoop kMax [] companies, trace, save_results dbOk trace⟩

/-- Spec-side description (§4.2 steps 4-5) of the text of a successful
extraction: the node texts with empty/whitespace-only ones skipped, joined by
single spaces, then with all double-quote and single-quote characters removed
and surrounding whitespace stripped.  Stated independently of the source's
two sequential `replace` calls, for comparison with `sanitizeText`. -/
def specSanitizedText (nodeTexts : List String) : String :=
  let joined := String.intercalate " " (nodeTexts.filter (fun t => !(pyStrip t).isEmpty))
  pyStrip ⟨joined.data.filter (fun ch => !(ch == quoteChar) && !(ch == apostChar))⟩

/-- An execution environment in which every external step succeeds and the
page's nodes carry the given texts. -/
def allOkExec (nodeTexts : List String) : ExtractorExec :=
  ⟨true, true, true, true, true, true, nodeTexts⟩

/-- A database that never fails. -/
def dbOkAll : Nat → String → Bool := fun _ _ => true

/-! ## Helper lemmas -/

/-- Every queue item put by `parse_company` is an envelope carrying the
record's own id (never the STOP sentinel). -/
theorem parse_company_puts_env (c : Nat × String) (e : ExtractorExec) :
    ∀ q ∈ (parse_company c e).puts, ∃ t, q = QItem.env t c.1 := by
  rcases e with ⟨c1, c2, c3, c4, c5, c6, ts⟩
  cases c1 <;> cases c2 <;> cases c3 <;> cases c4 <;> cases c5 <;> cases c6 <;>
    intro q hq <;> simp [parse_company] at hq <;>
    first
      | exact ⟨"ERROR", hq⟩
      | (rcases hq with hq | hq <;> exact ⟨_, hq⟩)
      | exact ⟨_, hq⟩

/-- The STOP sentinel is never among the envelopes produced by the
extractor rounds. -/
theorem mainEnvelopes_no_stop (kMax : Nat) (companies : List (Nat × String))
    (execOf : Nat × String → ExtractorExec) :
    QItem.stop ∉ mainEnvelopes kMax companies execOf := by
  intro hm
  simp only [mainEnvelopes, List.mem_flatten, List.mem_map] at hm
  obtain ⟨l, ⟨round, _, hround⟩, hl⟩ := hm
  subst hround
  simp only [List.mem_flatten, List.mem_map] at hl
  obtain ⟨puts, ⟨c, _, hputs⟩, hq⟩ := hl
  subst hputs
  obtain ⟨t, ht⟩ := parse_company_puts_env c (execOf c) _ hq
  exact QItem.noConfusion ht

/-- `save_results` on an envelope-headed trace is determined by its run on
the tail. -/
theorem save_results_cons_env (dbOk : Nat → String → Bool) (t : String) (i : Nat)
    (hL : List QItem) (hL2 : List QItem)
    (h : save_results dbOk hL = save_results dbOk hL2) :
    save_results dbOk (QItem.env t i :: hL) = save_results dbOk (QItem.env t i :: hL2) := by
  simp only [save_results, h]

/-- Items enqueued after the first STOP sentinel are never dequeued: the
saver's run on `body ++ STOP :: extra` equals its run on `body ++ [STOP]`
whenever `body` contains no sentinel. -/
theorem save_results_stop_extra (dbOk : Nat → String → Bool) :
    ∀ body : List QItem, QItem.stop ∉ body → ∀ extra : List QItem,
      save_results dbOk (body ++ QItem.stop :: extra) =
        save_results dbOk (body ++ [QItem.stop]) := by
  intro body
  induction body with
  | nil => intro _ extra; simp [save_results]
  | cons q body ih =>
    intro h extra
    match q with
    | QItem.stop => exact absurd (List.mem_cons_self _ _) h
    | QItem.env t i =>
      have h2 : QItem.stop ∉ body := fun hm => h (List.mem_cons_of_mem _ hm)
      simpa using save_results_cons_env dbOk t i _ _ (ih h2 extra)

/-- On a sentinel-terminated trace the saver completes exactly one dequeue
per envelope plus one for the sentinel. -/
theorem save_results_dequeued (dbOk : Nat → String → Bool) :
    ∀ body : List QItem, QItem.stop ∉ body →
      (save_results dbOk (body ++ [QItem.stop])).dequeued = body.length + 1 := by
  intro body
  induction body with
  | nil => intro _; simp [save_results]
  | cons q body ih =>
    intro h
    match q with
    | QItem.stop => exact absurd (List.mem_cons_self _ _) h
    | QItem.env t i =>
      have h2 : QItem.stop ∉ body := fun hm => h (List.mem_cons_of_mem _ hm)
      by_cases ht : pyTruthy t <;>
        simp [save_results, ht, ih h2, List.length_cons]

/-- The dispatcher's rounds partition the batch: concatenating the rounds
gives back `pending ++ rest`. -/
theorem dispatchLoop_flatten (kMax : Nat) :
    ∀ rest pending : List (Nat × String),
      (dispatchLoop kMax pending rest).flatten = pending ++ rest := by
  intro rest
  induction rest with
  | nil =>
    intro pending
    by_cases h : pending.isEmpty
    · simp [dispatchLoop, h, List.isEmpty_iff.mp h]
    · simp [dispatchLoop, h]
  | cons c rest ih =>
    intro pending
    simp only [dispatchLoop]
    by_cases h : kMax ≤ (pending ++ [c]).length
    · rw [if_pos h]
      simp [ih []]
    · rw [if_neg h]
      simp [ih (pending ++ [c])]

/-- Every round of the dispatcher holds at most `kMax` records, provided
`kMax ≥ 1` and the pending list is still below the cap. -/
theorem dispatchLoop_length_le (kMax : Nat) (hk : 1 ≤ kMax) :
    ∀ rest pending : List (Nat × String), pending.length < kMax →
      ∀ r ∈ dispatchLoop kMax pending rest, r.length ≤ kMax := by
  intro rest
  induction rest with
  | nil =>
    intro pending hp r hr
    by_cases h : pending.isEmpty <;> simp [dispatchLoop, h] at hr
    subst hr; omega
  | cons c rest ih =>
    intro pending hp r hr
    simp only [dispatchLoop] at hr
    by_cases h : kMax ≤ (pending ++ [c]).length
    · rw [if_pos h] at hr
      rcases List.mem_cons.mp hr with rfl | hr2
      · simp only [List.length_append, List.length_singleton]; omega
      · exact ih [] (by simpa using hk) r hr2
    · rw [if_neg h] at hr
      refine ih (pending ++ [c]) ?_ r hr
      simp only [List.length_append, List.length_singleton] at h ⊢
      omega

/-- The dispatcher never emits an empty round. -/
theorem dispatchLoop_ne_nil (kMax : Nat) :
    ∀ rest pending : List (Nat × String),
      ∀ r ∈ dispatchLoop kMax pending rest, r ≠ [] := by
  intro rest
  induction rest with
  | nil =>
    intro pending r hr
    by_cases h : pending.isEmpty <;> simp [dispatchLoop, h] at hr
    subst hr
    exact fun hnil => by simp [hnil] at h
  | cons c rest ih =>
    intro pending r hr
    simp only [dispatchLoop] at hr
    by_cases h : kMax ≤ (pending ++ [c]).length
    · rw [if_pos h] at hr
      rcases List.mem_cons.mp hr with rfl | hr2
      · simp
      · exact ih [] r hr2
    · rw [if_neg h] at hr
      exact ih (pending ++ [c]) r hr

/-- A fold of `max` over a list of naturals stays below any common bound. -/
theorem foldr_max_le (kMax : Nat) :
    ∀ l : List Nat, (∀ x ∈ l, x ≤ kMax) → l.foldr max 0 ≤ kMax := by
  intro l
  induction l with
  | nil => intro _; simp
  | cons x l ih =>
    intro h
    simp only [List.foldr_cons]
    exact max_le (h x (by simp)) (ih fun y hy => h y (by simp [hy]))

/-! ## Claim theorems -/

/-- Claim C1 (code evaluated at the failing input): a Failure outcome — the
envelope `("ERROR", 7)` — does reach the Record Store: because the enrichment
call (whose own guard maps ERROR to None) is bypassed by the stub
`processed_text = text`, the truthy string ERROR is written as the
description for id 7, contradicting the claim that Failure outcomes are
never persisted. -/
theorem spec_c1_failure_is_persisted :
    (save_results dbOkAll [QItem.env "ERROR" 7, QItem.stop]).attempts = [(7, "ERROR")] ∧
    (save_results dbOkAll [QItem.env "ERROR" 7, QItem.stop]).commits = [(7, "ERROR")] ∧
    process_with_chatgpt "ERROR" (some "summary") = none := by
  decide

/-- The execution in which every extractor step succeeds but `driver.quit()`
raises on the way out of the `with` block. -/
def execCloseFail : ExtractorExec :=
  ⟨true, true, true, true, true, false, ["hello"]⟩

/-- Claim C2, counterexample: when the body fully succeeds and the session
close then fails, `parse_company` enqueues two envelopes for the same record
— the success envelope followed by an ERROR envelope from the outer
`except` — so it is not the case that exactly one envelope is enqueued on
every path. -/
theorem spec_c2_counterexample :
    (parse_company (5, "https://bad-close.test") execCloseFail).puts =
      [QItem.env "hello" 5, QItem.env "ERROR" 5] ∧
    ¬ (parse_company (5, "https://bad-close.test") execCloseFail).puts.length = 1 := by
  decide

/-- Claim C2 as amended: on every execution except the one where the session
close fails after a fully successful body, `parse_company` enqueues exactly
one envelope, and it carries the record's id. -/
theorem spec_c2_exactly_one_envelope (c : Nat × String) (e : ExtractorExec)
    (h : e.closeOk = true ∨
      (e.createOk && e.navOk && e.waitOk && e.scrollOk && e.collectOk) = false) :
    ∃ t, (parse_company c e).puts = [QItem.env t c.1] := by
  rcases e with ⟨c1, c2, c3, c4, c5, c6, ts⟩
  cases c1 <;> cases c2 <;> cases c3 <;> cases c4 <;> cases c5 <;> cases c6 <;>
    first
      | exact ⟨_, rfl⟩
      | simp at h

/-- Witness for C2: a fully successful execution with a clean close satisfies
the hypothesis and yields exactly one envelope. -/
theorem spec_c2_exactly_one_envelope_witness :
    ((allOkExec ["hello"]).closeOk = true ∨
      ((allOkExec ["hello"]).createOk && (allOkExec ["hello"]).navOk &&
        (allOkExec ["hello"]).waitOk && (allOkExec ["hello"]).scrollOk &&
        (allOkExec ["hello"]).collectOk) = false) ∧
    ∃ t, (parse_company (9, "https://ok.test") (allOkExec ["hello"])).puts =
      [QItem.env t 9] :=
  ⟨Or.inl rfl,
    spec_c2_exactly_one_envelope (9, "https://ok.test") (allOkExec ["hello"]) (Or.inl rfl)⟩

/-- Claim C6, counterexample: a Success envelope whose sanitized text is the
empty string, with enrichment disabled, gets no persistence write at all —
the claim's "persists the sanitized extracted text verbatim for that id"
fails at text `""` (the stub feeds the empty string to the truthiness test). -/
theorem spec_c6_counterexample :
    (save_results dbOkAll [QItem.env "" 3, QItem.stop]).attempts = [] ∧
    (save_results dbOkAll [QItem.env "" 3, QItem.stop]).commits = [] := by
  decide

/-- Claim C6 as amended: with enrichment disabled (the code's stub path), the
Aggregator persists the sanitized extracted text verbatim for that id
whenever the text is nonempty — and an envelope with empty text is dropped
(the counterexample above). -/
theorem spec_c6_disabled_enrichment_verbatim (dbOk : Nat → String → Bool)
    (companyId : Nat) (t : String) (rest : List QItem) (ht : t ≠ "") :
    (save_results dbOk (QItem.env t companyId :: rest)).attempts =
      (companyId, t) :: (save_results dbOk rest).attempts ∧
    (dbOk companyId t = true →
      (save_results dbOk (QItem.env t companyId :: rest)).commits =
        (companyId, t) :: (save_results dbOk rest).commits) := by
  have hie : t.isEmpty = false := by
    cases hie2 : t.isEmpty
    · rfl
    · exact absurd ((String.isEmpty_iff t).mp hie2) ht
  have htr : pyTruthy t = true := by
    simp [pyTruthy, hie]
  refine ⟨by simp [save_results, htr], fun hdb => by simp [save_results, htr, hdb]⟩

/-- Witness for C6: a nonempty text is persisted verbatim. -/
theorem spec_c6_disabled_enrichment_verbatim_witness :
    ("text" : String) ≠ "" ∧
    ((save_results dbOkAll (QItem.env "text" 1 :: [])).attempts =
        (1, "text") :: (save_results dbOkAll []).attempts ∧
      (dbOkAll 1 "text" = true →
        (save_results dbOkAll (QItem.env "text" 1 :: [])).commits =
          (1, "text") :: (save_results dbOkAll []).commits)) :=
  ⟨by decide, spec_c6_disabled_enrichment_verbatim dbOkAll 1 "text" [] (by decide)⟩

/-- Claim C7: a failed batch fetch yields the empty sequence rather than an
exception, and on an empty batch (failed fetch or genuinely empty SELECT)
the driver returns at once: zero extractor processes started, zero rounds,
an untouched queue and zero persistence writes. -/
theorem spec_c7_empty_batch_no_work (kMax : Nat)
    (execOf : Nat × String → ExtractorExec) (dbOk : Nat → String → Bool) :
    fetch_companies (Except.error ()) = [] ∧
    mainDriver (Except.error ()) kMax execOf dbOk = ⟨0, [], [], ⟨0, [], []⟩⟩ ∧
    mainDriver (Except.ok []) kMax execOf dbOk = ⟨0, [], [], ⟨0, [], []⟩⟩ :=
  ⟨rfl, rfl, rfl⟩

/-- Claim C8: a persistence failure never stops the Aggregator loop — the
number of completed dequeues and the sequence of UPDATE statements executed
are the same whatever subset of database calls fails, so every subsequent
envelope is still dequeued and processed. -/
theorem spec_c8_db_failure_does_not_stop_loop (dbOk dbOk2 : Nat → String → Bool) :
    ∀ trace : List QItem,
      (save_results dbOk trace).dequeued = (save_results dbOk2 trace).dequeued ∧
      (save_results dbOk trace).attempts = (save_results dbOk2 trace).attempts := by
  intro trace
  induction trace with
  | nil => exact ⟨rfl, rfl⟩
  | cons q rest ih =>
    match q with
    | QItem.stop => exact ⟨rfl, rfl⟩
    | QItem.env t i =>
      by_cases ht : pyTruthy t <;> simp [save_results, ht, ih.1, ih.2]

/-- Claim C9: `driver.quit()` is invoked exactly on those invocations that
created a session — on every exit path, success or failure, a created
webdriver session is closed before `parse_company` returns, and no close is
attempted when creation itself failed. -/
theorem spec_c9_session_closed_on_every_path (c : Nat × String) (e : ExtractorExec) :
    (parse_company c e).closeInvoked = (parse_company c e).sessionCreated ∧
    (parse_company c e).sessionCreated = e.createOk := by
  rcases e with ⟨c1, c2, c3, c4, c5, c6, ts⟩
  cases c1 <;> cases c2 <;> cases c3 <;> cases c4 <;> cases c5 <;> cases c6 <;>
    exact ⟨rfl, rfl⟩

/-- Claim C10: an envelope whose text is the empty string is dequeued but
never persisted — the truthiness test `if processed_text:` drops it, so the
saver's attempts and commits are exactly those of the rest of the trace. -/
theorem spec_c10_empty_text_dropped (dbOk : Nat → String → Bool)
    (companyId : Nat) (rest : List QItem) :
    (save_results dbOk (QItem.env "" companyId :: rest)).attempts =
      (save_results dbOk rest).attempts ∧
    (save_results dbOk (QItem.env "" companyId :: rest)).commits =
      (save_results dbOk rest).commits ∧
    (save_results dbOk (QItem.env "" companyId :: rest)).dequeued =
      (save_results dbOk rest).dequeued + 1 := by
  have h0 : pyTruthy "" = false := by decide
  refine ⟨?_, ?_, ?_⟩ <;> simp [save_results, h0]

/-- Claim C3: on any interleaving `body` of the envelopes the extractor
rounds will ever produce, the driver's STOP sentinel appears exactly once and
last on the queue; the saver dequeues exactly one item per envelope plus the
sentinel, and anything enqueued after the sentinel causes no further dequeue,
no further UPDATE and no further commit (its run is unchanged). -/
theorem spec_c3_termination_protocol (kMax : Nat) (companies : List (Nat × String))
    (execOf : Nat × String → ExtractorExec) (dbOk : Nat → String → Bool)
    (body extra : List QItem)
    (hperm : body.Perm (mainEnvelopes kMax companies execOf)) :
    (body ++ [QItem.stop]).count QItem.stop = 1 ∧
    (save_results dbOk (body ++ [QItem.stop])).dequeued = body.length + 1 ∧
    save_results dbOk ((body ++ [QItem.stop]) ++ extra) =
      save_results dbOk (body ++ [QItem.stop]) := by
  have hstop : QItem.stop ∉ body := fun hm =>
    mainEnvelopes_no_stop kMax companies execOf (hperm.mem_iff.mp hm)
  refine ⟨?_, save_results_dequeued dbOk body hstop, ?_⟩
  · rw [List.count_append, List.count_eq_zero.mpr hstop]
    simp
  · rw [List.append_assoc]
    simpa using save_results_stop_extra dbOk body hstop extra

/-- A concrete two-record batch for the C3 witness. -/
def c3Companies : List (Nat × String) := [(1, "https://a.test"), (2, "https://b.test")]

/-- A concrete execution environment for the C3 witness: every step of every
extractor succeeds and each page carries one text node. -/
def c3ExecOf : Nat × String → ExtractorExec := fun _ => allOkExec ["x"]

/-- The envelope interleaving used by the C3 witness. -/
def c3Body : List QItem := mainEnvelopes 2 c3Companies c3ExecOf

/-- Witness for C3 at a concrete two-record run with concurrency limit 2. -/
theorem spec_c3_termination_protocol_witness :
    c3Body.Perm (mainEnvelopes 2 c3Companies c3ExecOf) ∧
    ((c3Body ++ [QItem.stop]).count QItem.stop = 1 ∧
      (save_results dbOkAll (c3Body ++ [QItem.stop])).dequeued = c3Body.length + 1 ∧
      save_results dbOkAll ((c3Body ++ [QItem.stop]) ++ [QItem.env "late" 9]) =
        save_results dbOkAll (c3Body ++ [QItem.stop])) :=
  ⟨List.Perm.refl _,
    spec_c3_termination_protocol 2 c3Companies c3ExecOf dbOkAll c3Body
      [QItem.env "late" 9] (List.Perm.refl _)⟩

/-- Claim C4: for every concurrency limit `kMax ≥ 1` the dispatcher
partitions the batch into consecutive rounds (their concatenation is the
batch, in order), every round — and hence the number of simultaneously
un-joined extractor processes — is at most `kMax`, and with `kMax = 1` every
round holds exactly one record, so extractors run strictly one at a time. -/
theorem spec_c4_concurrency_bound (kMax : Nat) (companies : List (Nat × String))
    (hk : 1 ≤ kMax) :
    (dispatchLoop kMax [] companies).flatten = companies ∧
    (∀ r ∈ dispatchLoop kMax [] companies, r.length ≤ kMax) ∧
    maxConcurrent kMax companies ≤ kMax ∧
    (kMax = 1 → ∀ r ∈ dispatchLoop kMax [] companies, r.length = 1) := by
  have hle : ∀ r ∈ dispatchLoop kMax [] companies, r.length ≤ kMax :=
    dispatchLoop_length_le kMax hk companies [] (by simp; omega)
  refine ⟨by simpa using dispatchLoop_flatten kMax companies [], hle, ?_, ?_⟩
  · refine foldr_max_le kMax _ ?_
    intro x hx
    simp only [List.mem_map] at hx
    obtain ⟨r, hr, rfl⟩ := hx
    exact hle r hr
  · intro h1 r hr
    have h2 := hle r hr
    have h3 := dispatchLoop_ne_nil kMax companies [] r hr
    have h4 : 0 < r.length := List.length_pos.mpr h3
    omega

/-- Witness for C4: three records with concurrency limit 1 give three
singleton rounds. -/
theorem spec_c4_concurrency_bound_witness :
    1 ≤ 1 ∧
    ((dispatchLoop 1 [] [(1, "a"), (2, "b"), (3, "c")]).flatten =
        [(1, "a"), (2, "b"), (3, "c")] ∧
      (∀ r ∈ dispatchLoop 1 [] [(1, "a"), (2, "b"), (3, "c")], r.length ≤ 1) ∧
      maxConcurrent 1 [(1, "a"), (2, "b"), (3, "c")] ≤ 1 ∧
      (1 = 1 → ∀ r ∈ dispatchLoop 1 [] [(1, "a"), (2, "b"), (3, "c")], r.length = 1)) :=
  ⟨by decide, spec_c4_concurrency_bound 1 [(1, "a"), (2, "b"), (3, "c")] (by decide)⟩

/-- The source's two sequential quote-removing `replace` calls equal one pass
deleting both quote characters, as the spec words it. -/
theorem sanitizeText_eq_spec_filter (s : String) :
    sanitizeText s =
      pyStrip ⟨s.data.filter (fun ch => !(ch == quoteChar) && !(ch == apostChar))⟩ := by
  unfold sanitizeText pyReplaceEmpty
  congr 2
  rw [List.filter_filter]
  exact List.filter_congr fun a _ => Bool.and_comm _ _

/-- Claim C5: on a successful extraction the envelope text equals the
spec-side formula — node texts with blank ones skipped, joined by single
spaces, all quote characters removed, surrounding whitespace stripped — and
any UPDATE the saver executes for that envelope persists exactly that text
for that id. -/
theorem spec_c5_success_text_formula (c : Nat × String) (nodeTexts : List String) :
    (parse_company c (allOkExec nodeTexts)).puts =
      [QItem.env (specSanitizedText nodeTexts) c.1] ∧
    ∀ w ∈ (save_results dbOkAll
        ((parse_company c (allOkExec nodeTexts)).puts ++ [QItem.stop])).attempts,
      w = (c.1, specSanitizedText nodeTexts) := by
  have h1 : (parse_company c (allOkExec nodeTexts)).puts =
      [QItem.env (specSanitizedText nodeTexts) c.1] := by
    show [QItem.env (sanitizeText (collectedText nodeTexts)) c.1] = _
    rw [sanitizeText_eq_spec_filter]
    rfl
  refine ⟨h1, ?_⟩
  rw [h1]
  intro w hw
  by_cases ht : pyTruthy (specSanitizedText nodeTexts)
  · simp [save_results, ht] at hw
    exact hw
  · simp [save_results, ht] at hw

/-- Witness for C5 at a concrete page: two text nodes, one containing a
double quote. -/
theorem spec_c5_success_text_formula_witness :
    (parse_company (2, "https://c.test") (allOkExec ["He said", "hi"])).puts =
      [QItem.env (specSanitizedText ["He said", "hi"]) 2] ∧
    ∀ w ∈ (save_results dbOkAll
        ((parse_company (2, "https://c.test") (allOkExec ["He said", "hi"])).puts ++
          [QItem.stop])).attempts,
      w = (2, specSanitizedText ["He said", "hi"]) :=
  spec_c5_success_text_formula (2, "https://c.test") ["He said", "hi"]
